import Mathlib

/-!
Shallow embedding of the agentic-RAG core of the `rag-journal` repository.

The embedding covers, faithfully to the Python source:
* the similarity ranker (`embeddings/embedder.py`): `cosine_similarity` and
  `rank_by_similarity`;
* the retrieval primitives of `rag/agentic_rag.py` (`_tool_search_by_content`,
  `_tool_search_by_author`, `_tool_search_by_metadata`, `_tool_count_articles`,
  `_tool_get_article_details`) together with the thin Mongo wrapper
  (`database/mongodb_client.py`: `find_by_filter`, `count_by_filter`,
  `get_all_articles`);
* the tool dispatcher `_execute_tool`;
* the orchestration loops `AgenticRAG.query` and `AgenticRAG.chat`, the
  conversation-history compression (`_compress_history_with_summary`,
  `_truncate_history`) and the history accessor `get_chat_history`.

Modelling conventions:
* Python floats are modelled as rationals (`Rat`); numeric literals are built
  with `mkRat` so that all definitions evaluate by kernel reduction.
* `datetime` values are modelled as integers with the timeline order;
  `datetime.fromisoformat` and `strftime` are external standard-library
  functions and are therefore parameters of the environment (`Env`), as are
  the document store contents, the embedding provider and `json.dumps`.
* Python exceptions are modelled with `Except String`: a tool body that can
  raise returns `Except String ToolResult`, and the catch-all in
  `_execute_tool` folds the error branch into a structured payload.
  `sys.exit(1)` on a completion-provider failure is modelled as the `.error`
  branch of the run result: the run never converts it into a normal answer.
* The completion provider is a stub `LLMStub`: a function of the index of the
  provider call within the run and of the conversation sent to it.  MongoDB
  projections only restrict which fields are materialised and are dropped.
-/

deriving instance DecidableEq for Except

namespace RagJournal

/-! ## Python string helpers (str.lower and case-insensitive regex search) -/

/-- ASCII lowercasing of one character, as `str.lower` does on the ASCII range. -/
def lowerChar (c : Char) : Char :=
  if 'A' ≤ c && c ≤ 'Z' then Char.ofNat (c.toNat + 32) else c

/-- `s.lower()` viewed as a character list. -/
def lowerList (s : String) : List Char :=
  s.toList.map lowerChar

/-- Occurrence of `pat` as a contiguous sublist of `hay`.  Models the Mongo
`$regex` filter of the source, which is always used with a plain author
substring and the case-insensitive option. -/
def substrOccurs (pat hay : List Char) : Bool :=
  (List.range (hay.length + 1)).any fun i =>
    decide ((hay.drop i).take pat.length = pat)

/-- Case-insensitive substring match: `{"$regex": pat, "$options": "i"}`. -/
def regexIMatch (pat s : String) : Bool :=
  substrOccurs (lowerList pat) (lowerList s)

/-- Banker's rounding to three decimals: Python `round(x, 3)`.  The exact
decimal half-even rule is modelled; binary floating-point representation
artefacts are out of scope.  Only used for the displayed score. -/
def pyRound3 (q : Rat) : Rat :=
  let a : Int := q.num * 1000
  let d : Int := (q.den : Int)
  let f : Int := a / d
  let r : Int := a % d
  let n : Int :=
    if 2 * r < d then f
    else if 2 * r > d then f + 1
    else if f % 2 = 0 then f else f + 1
  mkRat n 1000

/-! ## Data model: documents and the Mongo wrapper -/

/-- The `metadata` sub-document of an article. -/
structure ArticleMeta where
  title : String
  author : String
  publication_date : Option Int
  categories : List String
deriving DecidableEq

/-- One stored article, with the fields the query core reads. -/
structure Article where
  article_id : String
  metadata : ArticleMeta
  embedding : Option (List Rat)
  url : Option String
  source : Option String
  full_text : String
deriving DecidableEq

/-- The Mongo filter documents actually built by the retrieval primitives:
an optional case-insensitive author regex, optional inclusive date bounds
(`$gte`/`$lte` on `metadata.publication_date`), an optional `$in` on
`metadata.categories` and an optional `$in` on `article_id`. -/
structure MongoFilter where
  author_regex : Option String := none
  date_gte : Option Int := none
  date_lte : Option Int := none
  categories_in : Option (List String) := none
  ids_in : Option (List String) := none
deriving DecidableEq

/-- Mongo matching semantics for the filters above.  A `$gte`/`$lte` bound on
a missing `publication_date` does not match, as in MongoDB. -/
def filterMatches (f : MongoFilter) (a : Article) : Bool :=
  (match f.author_regex with
   | none => true
   | some p => regexIMatch p a.metadata.author) &&
  (match f.date_gte with
   | none => true
   | some d => match a.metadata.publication_date with
     | some pd => decide (d ≤ pd)
     | none => false) &&
  (match f.date_lte with
   | none => true
   | some d => match a.metadata.publication_date with
     | some pd => decide (pd ≤ d)
     | none => false) &&
  (match f.categories_in with
   | none => true
   | some cs => a.metadata.categories.any fun c => cs.contains c) &&
  (match f.ids_in with
   | none => true
   | some ids => ids.contains a.article_id)

/-- `MongoDBClient.find_by_filter`: `limit = 0` means no limit, as in the
source (`if limit > 0: cursor = cursor.limit(limit)`). -/
def find_by_filter (db : List Article) (f : MongoFilter) (limit : Nat) : List Article :=
  let matching := db.filter (filterMatches f)
  if limit > 0 then matching.take limit else matching

/-- `MongoDBClient.count_by_filter`: `count_documents` over the same filter. -/
def count_by_filter (db : List Article) (f : MongoFilter) : Nat :=
  (db.filter (filterMatches f)).length

/-- `MongoDBClient.get_all_articles`: a full scan. -/
def get_all_articles (db : List Article) : List Article :=
  db

/-! ## Similarity ranker (`embeddings/embedder.py`) -/

/-- `np.dot` on equally long vectors. -/
def dotProd (a b : List Rat) : Rat :=
  (List.zipWith (fun x y => x * y) a b).sum

/-- Squared Euclidean norm; `np.linalg.norm a = Real.sqrt (normSq a)`, and the
norm is zero exactly when `normSq` is zero. -/
def normSq (a : List Rat) : Rat :=
  dotProd a a

/-- The value of the numpy expression `dot(a,b) / (norm(a) * norm(b))`.
Since the norms are square roots, a finite value is recorded symbolically as
`num / sqrt denSq` with `denSq ≠ 0`; when the denominator is zero numpy
performs an IEEE division by zero, yielding `nan` for `0/0` and a signed
infinity otherwise — it never raises. -/
inductive CosineValue where
  | nan : CosineValue
  | infiniteVal (num : Rat) : CosineValue
  | finiteVal (num denSq : Rat) : CosineValue
deriving DecidableEq

/-- `ArticleEmbedder.cosine_similarity`:
`float(np.dot(a, b) / (np.linalg.norm(a) * np.linalg.norm(b)))`. -/
def cosine_similarity (a b : List Rat) : CosineValue :=
  if normSq a = 0 ∨ normSq b = 0 then
    if dotProd a b = 0 then .nan else .infiniteVal (dotProd a b)
  else
    .finiteVal (dotProd a b) (normSq a * normSq b)

/-- `ArticleEmbedder.rank_by_similarity`: score every `(article, embedding)`
pair against the query embedding and sort the scored triples by score,
descending and stable (Python `list.sort(key=..., reverse=True)` is a stable
sort; a stable sort is extensionally unique, so the insertion sort used here
computes the same list).  The numeric similarity function is the `sim`
parameter of the environment: it stands for the real-valued
`cosine_similarity` of the source, whose zero-norm corner is analysed
separately through `cosine_similarity` above. -/
def rank_by_similarity (sim : List Rat → List Rat → Rat) (query_embedding : List Rat)
    (article_embeddings : List (Article × List Rat)) : List (Article × List Rat × Rat) :=
  let scored := article_embeddings.map fun p => (p.1, p.2, sim query_embedding p.2)
  scored.insertionSort fun x y => y.2.2 ≤ x.2.2

/-! ## Tool parameters, results and the environment -/

/-- The parameter mapping of a tool call.  A field that is `none` models a key
absent from the Python dict. -/
structure ToolParams where
  query : Option String := none
  author : Option String := none
  date_from : Option String := none
  date_to : Option String := none
  categories : Option (List String) := none
  article_ids : Option (List String) := none
deriving DecidableEq

/-- Python truthiness of an optional string parameter:
`'k' in params and params['k']` is false for an absent key and for `""`. -/
def truthyStr : Option String → Option String
  | some s => if s = "" then none else some s
  | none => none

/-- Python truthiness of an optional list parameter. -/
def truthyList : Option (List String) → Option (List String)
  | some l => if l = [] then none else some l
  | none => none

/-- One entry of the `articles` list built by `_tool_search_by_content`. -/
structure ContentHit where
  article_id : String
  title : String
  author : String
  date : String
  url : String
  source : String
  similarity_score : Rat
deriving DecidableEq

/-- One entry of the `articles` list built by `_tool_search_by_author`. -/
structure AuthorHit where
  article_id : String
  title : String
  author : String
  date : String
  url : String
deriving DecidableEq

/-- One entry of the `articles` list built by `_tool_search_by_metadata`. -/
structure MetaHit where
  article_id : String
  title : String
  author : String
  date : String
deriving DecidableEq

/-- One entry of the `articles` list built by `_tool_get_article_details`. -/
structure DetailHit where
  article_id : String
  title : String
  author : String
  date : String
  url : String
  source : String
  content : String
deriving DecidableEq

/-- The result dictionaries a tool dispatch can return.  `.error` is the
structured `{"error": message}` payload produced by the dispatch layer. -/
inductive ToolResult where
  | error (msg : String) : ToolResult
  | noEmbeddings (message : String) : ToolResult
  | contentHits (total_found : Nat) (articles : List ContentHit) : ToolResult
  | authorHits (total_found : Nat) (articles : List AuthorHit) : ToolResult
  | metadataHits (total_found : Nat) (filters_used : ToolParams) (articles : List MetaHit) : ToolResult
  | countResult (count : Nat) (filters_used : ToolParams) : ToolResult
  | detailHits (total_found : Nat) (articles : List DetailHit) : ToolResult
deriving DecidableEq

/-- The external collaborators and configuration of one `AgenticRAG` instance:
the document store contents, the embedding provider, the numeric similarity
used by the ranker, `datetime.fromisoformat` (which raises `ValueError`,
modelled as `.error`, on an unparseable date), `strftime` for display,
`json.dumps` for serialising tool results into tool turns, and the
`semantic_search_top_k` configuration value. -/
structure Env where
  db : List Article
  embed_text : String → List Rat
  sim : List Rat → List Rat → Rat
  parseISO : String → Except String Int
  strftime : Int → String
  dumps : ToolResult → String
  semantic_top_k : Nat

/-- `publication_date.strftime("%Y-%m-%d") if ... else "N/A"`. -/
def dateField (env : Env) : Option Int → String
  | some t => env.strftime t
  | none => "N/A"

/-! ## Retrieval primitives (`AgenticRAG._tool_*`) -/

/-- The fixed similarity threshold `0.3` of `_tool_search_by_content`. -/
def semanticThreshold : Rat := mkRat 3 10

/-- The comprehension
`[(art, art["embedding"]) for art in all_articles if "embedding" in art and art["embedding"]]`. -/
def articles_with_embeddings (db : List Article) : List (Article × List Rat) :=
  (get_all_articles db).filterMap fun art =>
    match art.embedding with
    | some e => if e = [] then none else some (art, e)
    | none => none

/-- The summary dictionary built for one ranked triple in
`_tool_search_by_content`. -/
def content_hit (env : Env) (t : Article × List Rat × Rat) : ContentHit :=
  { article_id := t.1.article_id
    title := t.1.metadata.title
    author := t.1.metadata.author
    date := dateField env t.1.metadata.publication_date
    url := t.1.url.getD "N/A"
    source := t.1.source.getD "N/A"
    similarity_score := pyRound3 t.2.2 }

/-- `AgenticRAG._tool_search_by_content`.  `params["query"]` raises `KeyError`
when absent; the no-embeddings corpus returns the distinct
`{"articles": [], "message": ...}` payload; otherwise the ranked list is
sliced to `semantic_top_k` and filtered by `score > 0.3` exactly as the
comprehension `for art, _, score in ranked[:k] if score > 0.3` does. -/
def tool_search_by_content (env : Env) (params : ToolParams) : Except String ToolResult :=
  match params.query with
  | none => .error "KeyError: query"
  | some query =>
    let query_embedding := env.embed_text query
    let pairs := articles_with_embeddings env.db
    if pairs.isEmpty then
      .ok (.noEmbeddings "No articles with embeddings found")
    else
      let ranked := rank_by_similarity env.sim query_embedding pairs
      let top_articles :=
        ((ranked.take env.semantic_top_k).filter
          fun t => decide (semanticThreshold < t.2.2)).map (content_hit env)
      .ok (.contentHits top_articles.length top_articles)

/-- `AgenticRAG._tool_search_by_author`: case-insensitive author regex,
limit 50. -/
def tool_search_by_author (env : Env) (params : ToolParams) : Except String ToolResult :=
  match params.author with
  | none => .error "KeyError: author"
  | some author =>
    let articles := find_by_filter env.db { author_regex := some author } 50
    .ok (.authorHits articles.length (articles.map fun a =>
      { article_id := a.article_id
        title := a.metadata.title
        author := a.metadata.author
        date := dateField env a.metadata.publication_date
        url := a.url.getD "N/A" }))

/-- The filter-building prelude of `_tool_search_by_metadata`, verbatim:
truthy `author` becomes a case-insensitive regex, truthy `date_from` and
`date_to` are parsed with `datetime.fromisoformat` (`ValueError` propagates),
a truthy `categories` list becomes an `$in` filter. -/
def metadata_filters_for_search (env : Env) (params : ToolParams) :
    Except String MongoFilter := do
  let f0 : MongoFilter := {}
  let f1 := match truthyStr params.author with
    | some a => { f0 with author_regex := some a }
    | none => f0
  let f2 ← match truthyStr params.date_from with
    | some d => do
        let t ← env.parseISO d
        pure { f1 with date_gte := some t }
    | none => pure f1
  let f3 ← match truthyStr params.date_to with
    | some d => do
        let t ← env.parseISO d
        pure { f2 with date_lte := some t }
    | none => pure f2
  match truthyList params.categories with
  | some cs => pure { f3 with categories_in := some cs }
  | none => pure f3

/-- The filter-building prelude of `_tool_count_articles`: the source
duplicates the code of `_tool_search_by_metadata` line for line, so the
embedding keeps two definitions with identical bodies. -/
def metadata_filters_for_count (env : Env) (params : ToolParams) :
    Except String MongoFilter := do
  let f0 : MongoFilter := {}
  let f1 := match truthyStr params.author with
    | some a => { f0 with author_regex := some a }
    | none => f0
  let f2 ← match truthyStr params.date_from with
    | some d => do
        let t ← env.parseISO d
        pure { f1 with date_gte := some t }
    | none => pure f1
  let f3 ← match truthyStr params.date_to with
    | some d => do
        let t ← env.parseISO d
        pure { f2 with date_lte := some t }
    | none => pure f2
  match truthyList params.categories with
  | some cs => pure { f3 with categories_in := some cs }
  | none => pure f3

/-- The summary dictionary of one article in `_tool_search_by_metadata`. -/
def meta_hit (env : Env) (a : Article) : MetaHit :=
  { article_id := a.article_id
    title := a.metadata.title
    author := a.metadata.author
    date := dateField env a.metadata.publication_date }

/-- `AgenticRAG._tool_search_by_metadata`: find with limit 100,
`total_found = len(articles)`, and the materialised list additionally sliced
to the first 50. -/
def tool_search_by_metadata (env : Env) (params : ToolParams) : Except String ToolResult := do
  let filters ← metadata_filters_for_search env params
  let articles := find_by_filter env.db filters 100
  pure (.metadataHits articles.length params ((articles.take 50).map (meta_hit env)))

/-- `AgenticRAG._tool_count_articles`: the same filters, counted without
materialising documents. -/
def tool_count_articles (env : Env) (params : ToolParams) : Except String ToolResult := do
  let filters ← metadata_filters_for_count env params
  pure (.countResult (count_by_filter env.db filters) params)

/-- `AgenticRAG._tool_get_article_details`: `$in` fetch of the requested ids,
no limit; absent ids are silently omitted. -/
def tool_get_article_details (env : Env) (params : ToolParams) : Except String ToolResult :=
  match params.article_ids with
  | none => .error "KeyError: article_ids"
  | some ids =>
    let articles := find_by_filter env.db { ids_in := some ids } 0
    .ok (.detailHits articles.length (articles.map fun a =>
      { article_id := a.article_id
        title := a.metadata.title
        author := a.metadata.author
        date := dateField env a.metadata.publication_date
        url := a.url.getD "N/A"
        source := a.source.getD "N/A"
        content := a.full_text }))

/-! ## Tool dispatch (`AgenticRAG._execute_tool`) -/

/-- The names declared by `AgenticRAG._define_tools`, in source order. -/
def registered_tool_names : List String :=
  ["search_by_content", "search_by_author", "search_by_metadata",
   "count_articles", "get_article_details"]

/-- The body of the `try` block of `_execute_tool`: the name-directed branch.
An unregistered name returns the structured unknown-tool payload as a normal
value; a raising tool body propagates its exception (the `.error` of the
`Except`). -/
def execute_tool_raw (env : Env) (tool_name : String) (parameters : ToolParams) :
    Except String ToolResult :=
  if tool_name = "search_by_content" then tool_search_by_content env parameters
  else if tool_name = "search_by_author" then tool_search_by_author env parameters
  else if tool_name = "search_by_metadata" then tool_search_by_metadata env parameters
  else if tool_name = "count_articles" then tool_count_articles env parameters
  else if tool_name = "get_article_details" then tool_get_article_details env parameters
  else .ok (.error ("Unknown tool: " ++ tool_name))

/-- `AgenticRAG._execute_tool` with its catch-all
`except Exception as e: return {"error": str(e)}`: every call returns a
result dictionary, never an exception. -/
def execute_tool (env : Env) (tool_name : String) (parameters : ToolParams) : ToolResult :=
  match execute_tool_raw env tool_name parameters with
  | .ok r => r
  | .error e => .error e

/-! ## Conversation turns and the orchestration loops -/

/-- One tool call requested by the completion provider. -/
structure ToolCall where
  id : String
  name : String
  parameters : ToolParams
deriving DecidableEq

/-- One conversation turn, as the message dictionaries of the source: `role`
is one of `"system"`, `"user"`, `"assistant"`, `"tool"`; `tool_calls`,
`tool_call_id` and `name` are only populated on the turns that carry them. -/
structure Message where
  role : String
  content : String
  tool_calls : List ToolCall := []
  tool_call_id : String := ""
  name : String := ""
deriving DecidableEq

/-- The normalised completion-provider response consumed by the loops:
`{content, tool_calls}` (the `finish_reason` field is never read). -/
structure LLMResponse where
  content : String
  tool_calls : List ToolCall
deriving DecidableEq

/-- The completion provider as a stub: a function of the index of the
provider call within the run and of the conversation sent.  A `.error` value
models a provider-level failure (in the source: `sys.exit(1)` from
`OpenAIClient.generate_with_tools`, never a normal return). -/
abbrev LLMStub := Nat → List Message → Except String LLMResponse

/-- One `{tool, parameters, result}` record of the returned `tool_calls`. -/
structure ToolRecord where
  tool : String
  parameters : ToolParams
  result : ToolResult
deriving DecidableEq

/-- The `{answer, tool_calls, iterations}` dictionary returned by a run. -/
structure QueryResult where
  answer : String
  tool_calls : List ToolRecord
  iterations : Nat
deriving DecidableEq

/-- `AgenticRAG._get_system_prompt` (the full Italian prompt text is inert to
control flow and abbreviated to its first sentence). -/
def get_system_prompt : String :=
  "Sei un assistente intelligente che aiuta a rispondere a domande su una collezione di articoli giornalistici politici italiani."

/-- The fixed fallback answer returned when the iteration cap is reached. -/
def iteration_limit_answer : String :=
  "Ho raggiunto il limite di iterazioni. Prova a riformulare la domanda."

/-- The body of `for tool_call in response["tool_calls"]`: execute the tool,
append the `{tool, parameters, result}` record, and append to the working
conversation an assistant turn echoing the request (the source appends it
once per tool call) followed by the tool-result turn. -/
def process_one_tool_call (env : Env) (response : LLMResponse)
    (acc : List Message × List ToolRecord) (tc : ToolCall) :
    List Message × List ToolRecord :=
  let result := execute_tool env tc.name tc.parameters
  (acc.1 ++
    [{ role := "assistant", content := response.content, tool_calls := response.tool_calls },
     { role := "tool", content := env.dumps result, tool_call_id := tc.id, name := tc.name }],
   acc.2 ++ [{ tool := tc.name, parameters := tc.parameters, result := result }])

/-- The whole tool-dispatch section of one loop iteration. -/
def process_tool_calls (env : Env) (response : LLMResponse)
    (conversation : List Message) (tool_results : List ToolRecord) :
    List Message × List ToolRecord :=
  response.tool_calls.foldl (process_one_tool_call env response) (conversation, tool_results)

/-- The `for iteration in range(max_iterations)` loop of `AgenticRAG.query`.
`i` is the zero-based index of the current iteration (and of the provider
call), `remaining` the number of iterations left; on success the returned
`iterations` field is `i + 1`, on exhaustion it is `max_iterations`.  A
provider failure aborts the run with `.error`. -/
def query_loop (env : Env) (llm : LLMStub) (max_iterations : Nat) :
    Nat → Nat → List Message → List ToolRecord → Except String QueryResult
  | _, 0, _, tool_results =>
    .ok { answer := iteration_limit_answer, tool_calls := tool_results,
          iterations := max_iterations }
  | i, remaining + 1, conversation, tool_results =>
    match llm i conversation with
    | .error e => .error e
    | .ok response =>
      if response.tool_calls.isEmpty then
        .ok { answer := response.content, tool_calls := tool_results, iterations := i + 1 }
      else
        let step := process_tool_calls env response conversation tool_results
        query_loop env llm max_iterations (i + 1) remaining step.1 step.2

/-- `AgenticRAG.query`: single-query mode, no persistent history. -/
def query (env : Env) (llm : LLMStub) (user_query : String) (max_iterations : Nat) :
    Except String QueryResult :=
  query_loop env llm max_iterations 0 max_iterations
    [{ role := "system", content := get_system_prompt },
     { role := "user", content := user_query }] []

/-- The list of tool-call records executed by a run of `query_loop`, computed
by the same recursion: the trace stops growing exactly where the loop stops
dispatching, so it collects every executed tool call. -/
def query_loop_trace (env : Env) (llm : LLMStub) :
    Nat → Nat → List Message → List ToolRecord → List ToolRecord
  | _, 0, _, tool_results => tool_results
  | i, remaining + 1, conversation, tool_results =>
    match llm i conversation with
    | .error _ => tool_results
    | .ok response =>
      if response.tool_calls.isEmpty then tool_results
      else
        let step := process_tool_calls env response conversation tool_results
        query_loop_trace env llm (i + 1) remaining step.1 step.2

/-! ## Conversation state management (`chat`, compression, history) -/

/-- The chat configuration read in `AgenticRAG.__init__`, with its defaults. -/
structure ChatConfig where
  max_history_turns : Nat := 10
  auto_compress : Bool := true
  compression_strategy : String := "summary"
deriving DecidableEq

/-- The summarisation prompt of `_compress_history_with_summary`. -/
def summary_prompt (history_text : String) : String :=
  "Riassumi brevemente questa conversazione precedente in 2-3 frasi:\n\n" ++
    history_text ++ "\n\nRiassunto conciso:"

/-- `"\n".join(f"role: content[:500]" for old user/assistant messages)`. -/
def history_transcript (old_messages : List Message) : String :=
  String.intercalate "\n"
    ((old_messages.filter fun m => m.role = "user" || m.role = "assistant").map
      fun m => m.role ++ ": " ++ m.content.take 500)

/-- `AgenticRAG._compress_history_with_summary`: keep the most recent 6 turns,
summarise the older ones through `llm.generate(prompt, max_tokens=200)` and
put the summary in one synthetic system turn before the kept turns; if the
generation call raises, fall back to the kept turns alone. -/
def compress_history_with_summary (generate : String → Nat → Except String String)
    (history : List Message) : List Message :=
  let keep_recent := 6
  if history.length ≤ keep_recent then history
  else
    let old_messages := history.take (history.length - keep_recent)
    let recent_messages := history.drop (history.length - keep_recent)
    match generate (summary_prompt (history_transcript old_messages)) 200 with
    | .ok summary =>
      { role := "system",
        content := "[Contesto conversazione precedente: " ++ summary ++ "]" } :: recent_messages
    | .error _ => recent_messages

/-- `AgenticRAG._truncate_history`: keep the most recent
`2 * max_history_turns` turns, no external call. -/
def truncate_history (max_history_turns : Nat) (history : List Message) : List Message :=
  let keep := max_history_turns * 2
  if history.length > keep then history.drop (history.length - keep) else history

/-- The auto-compression step at the top of `AgenticRAG.chat`, run before the
new user turn is appended: it fires when the history is strictly longer than
`2 * max_history_turns` and applies the configured strategy. -/
def chat_maybe_compress (cfg : ChatConfig) (generate : String → Nat → Except String String)
    (history : List Message) : List Message :=
  if cfg.auto_compress && decide (history.length > cfg.max_history_turns * 2) then
    if cfg.compression_strategy = "summary" then
      compress_history_with_summary generate history
    else if cfg.compression_strategy = "truncate" then
      truncate_history cfg.max_history_turns history
    else history
  else history

/-- The iteration loop of `AgenticRAG.chat`.  The persistent history (last
argument) is threaded untouched through the iterations — tool exchanges are
appended to the working `conversation` only — and gains exactly one assistant
turn when the run terminates, on both the final-answer and the exhaustion
paths. -/
def chat_loop (env : Env) (llm : LLMStub) (max_iterations : Nat) :
    Nat → Nat → List Message → List ToolRecord → List Message →
    Except String (QueryResult × List Message)
  | _, 0, _, tool_results, history =>
    .ok ({ answer := iteration_limit_answer, tool_calls := tool_results,
           iterations := max_iterations },
         history ++ [{ role := "assistant", content := iteration_limit_answer }])
  | i, remaining + 1, conversation, tool_results, history =>
    match llm i conversation with
    | .error e => .error e
    | .ok response =>
      if response.tool_calls.isEmpty then
        .ok ({ answer := response.content, tool_calls := tool_results, iterations := i + 1 },
             history ++ [{ role := "assistant", content := response.content }])
      else
        let step := process_tool_calls env response conversation tool_results
        chat_loop env llm max_iterations (i + 1) remaining step.1 step.2 history

/-- `AgenticRAG.chat`: compress if needed, append the user turn to the
persistent history, build the working conversation as system prompt plus
history, and run the loop.  Returns the run result together with the new
persistent history. -/
def chat (cfg : ChatConfig) (env : Env) (llm : LLMStub)
    (generate : String → Nat → Except String String) (user_query : String)
    (max_iterations : Nat) (history : List Message) :
    Except String (QueryResult × List Message) :=
  let compressed := chat_maybe_compress cfg generate history
  let history1 := compressed ++ [{ role := "user", content := user_query }]
  let conversation := { role := "system", content := get_system_prompt } :: history1
  chat_loop env llm max_iterations 0 max_iterations conversation [] history1

/-! ## The history accessor and Python aliasing (`get_chat_history`)

`get_chat_history` returns `self.conversation_history.copy()`: a fresh list
object holding references to the same turn dictionaries.  To reason about
mutation through the returned value the heap is made explicit: turn objects
live in an object store indexed by addresses, the session history is a list
of addresses, and the accessor returns a fresh list of the same addresses. -/

/-- One mutable turn dictionary. -/
structure TurnObj where
  role : String
  content : String
deriving DecidableEq

/-- The session state: the object store and the stored history, a list of
addresses into the store. -/
structure SessionState where
  heap : List TurnObj
  historyRefs : List Nat
deriving DecidableEq

/-- `AgenticRAG.get_chat_history`: `self.conversation_history.copy()` — a new
list value containing the same turn references. -/
def get_chat_history (s : SessionState) : List Nat :=
  s.historyRefs

/-- Dereference one address. -/
def readTurn (s : SessionState) (addr : Nat) : TurnObj :=
  s.heap.getD addr { role := "", content := "" }

/-- The stored history as the caller observes it later: the stored references,
dereferenced. -/
def stored_history (s : SessionState) : List TurnObj :=
  s.historyRefs.map (readTurn s)

/-- A mutation the caller can perform on the value returned by the accessor:
either a list-level mutation (append, remove, replace — it rebuilds the
caller's own list and touches no shared object), or an in-place mutation of
the turn object at position `i` of the returned list. -/
inductive CallerMutation where
  | listMutate (newRefs : List Nat) : CallerMutation
  | turnMutate (i : Nat) (newTurn : TurnObj) : CallerMutation
deriving DecidableEq

/-- Effect of a caller mutation on the session state and on the caller's
list.  A list mutation leaves the session untouched because the returned list
was copied; a turn mutation writes through the shared reference into the
object store. -/
def apply_caller_mutation (s : SessionState) (returned : List Nat) :
    CallerMutation → SessionState × List Nat
  | .listMutate newRefs => (s, newRefs)
  | .turnMutate i newTurn =>
    match returned.get? i with
    | some addr => ({ s with heap := s.heap.set addr newTurn }, returned)
    | none => (s, returned)

/-! ## Theorems -/

/-- C4: the claim says a zero-norm vector must be reported as a ranker error
and never silently coerced to NaN.  The code computes
`np.dot(a,b) / (np.linalg.norm(a) * np.linalg.norm(b))` with no guard: for the
zero vector the norm is `0`, the dot product is `0`, and numpy's IEEE division
`0.0 / 0.0` silently yields NaN without raising.  This theorem evaluates the
embedded code at the failing input `a = [0.0]`, `b = [1.0]`. -/
theorem cosine_similarity_zero_norm_silently_nan :
    cosine_similarity [0] [1] = CosineValue.nan := by
  simp [cosine_similarity, normSq, dotProd]

/-- Concrete session used to refute claim C10. -/
def sessionC10 : SessionState :=
  { heap := [{ role := "user", content := "ciao" }], historyRefs := [0] }

/-- C10 counterexample: `get_chat_history` returns `history.copy()`, a shallow
copy, so mutating in place a turn object reachable from the returned list
changes the stored session history — refuting, at an explicit concrete state,
the claim that no mutation of the returned value (including mutation of the
contained turn objects) changes the stored history. -/
theorem get_chat_history_turn_mutation_leaks :
    stored_history
      (apply_caller_mutation sessionC10 (get_chat_history sessionC10)
        (.turnMutate 0 { role := "user", content := "manomesso" })).1 ≠
      stored_history sessionC10 := by
  decide

/-- C10 (amended): the history accessor returns a fresh list object holding
the same turn references, so the copy is independent at the list level: any
list-level mutation of the returned value (append, remove, replace) leaves
the session state — and hence the stored history — completely unchanged.
(In-place mutation of a contained turn object, by contrast, writes through
the shared reference, as the counterexample shows.) -/
theorem get_chat_history_list_level_independent (s : SessionState) (newRefs : List Nat) :
    (apply_caller_mutation s (get_chat_history s) (.listMutate newRefs)).1 = s ∧
    stored_history (apply_caller_mutation s (get_chat_history s) (.listMutate newRefs)).1 =
      stored_history s :=
  ⟨rfl, rfl⟩

/-- Dispatch of an unregistered tool name returns the structured unknown-tool
payload as a normal value. -/
lemma execute_tool_unknown (env : Env) (n : String) (p : ToolParams)
    (h : n ∉ registered_tool_names) :
    execute_tool env n p = .error ("Unknown tool: " ++ n) := by
  have h' : ¬(n = "search_by_content" ∨ n = "search_by_author" ∨ n = "search_by_metadata" ∨
      n = "count_articles" ∨ n = "get_article_details") := by
    simpa [registered_tool_names] using h
  push_neg at h'
  obtain ⟨h1, h2, h3, h4, h5⟩ := h'
  simp [execute_tool, execute_tool_raw, h1, h2, h3, h4, h5]

/-- A truthy but unparseable `date_from` makes the filter building of both
metadata tools fail with the `ValueError` of `fromisoformat`. -/
lemma metadata_filters_bad_date (env : Env) (p : ToolParams) (d m : String)
    (hd : truthyStr p.date_from = some d) (hm : env.parseISO d = .error m) :
    metadata_filters_for_search env p = .error m ∧
    metadata_filters_for_count env p = .error m := by
  constructor <;>
    simp [metadata_filters_for_search, metadata_filters_for_count, hd, hm,
      Bind.bind, Except.bind]

/-- C2: dispatching a tool call always returns a result dictionary and never
propagates an exception.  Conjuncts: (1) `_execute_tool` is the `try` body
with every raised exception folded into a structured `{error}` payload;
(2) a name outside the registry yields exactly
`{"error": "Unknown tool: <name>"}`; (3) an unparseable `date_from` makes
both metadata tools return `{error: message}` rather than raising across the
loop boundary; (4) a missing required parameter (`query`) likewise becomes a
structured error; (5) after an unknown-tool dispatch the loop proceeds to the
next iteration — with the structured error recorded — rather than aborting. -/
theorem execute_tool_structured_errors :
    (∀ (env : Env) (n : String) (p : ToolParams),
      execute_tool env n p =
        match execute_tool_raw env n p with
        | .ok r => r
        | .error m => .error m) ∧
    (∀ (env : Env) (n : String) (p : ToolParams), n ∉ registered_tool_names →
      execute_tool env n p = .error ("Unknown tool: " ++ n)) ∧
    (∀ (env : Env) (p : ToolParams) (d m : String),
      truthyStr p.date_from = some d → env.parseISO d = .error m →
      execute_tool env "search_by_metadata" p = .error m ∧
      execute_tool env "count_articles" p = .error m) ∧
    (∀ (env : Env) (p : ToolParams), p.query = none →
      execute_tool env "search_by_content" p = .error "KeyError: query") ∧
    (∀ (env : Env) (llm : LLMStub) (M i remaining : Nat) (conv : List Message)
      (acc : List ToolRecord) (c : String) (tc : ToolCall),
      llm i conv = .ok { content := c, tool_calls := [tc] } →
      tc.name ∉ registered_tool_names →
      query_loop env llm M i (remaining + 1) conv acc =
        query_loop env llm M (i + 1) remaining
          (conv ++
            [{ role := "assistant", content := c, tool_calls := [tc] },
             { role := "tool", content := env.dumps (.error ("Unknown tool: " ++ tc.name)),
               tool_call_id := tc.id, name := tc.name }])
          (acc ++ [{ tool := tc.name, parameters := tc.parameters,
                     result := .error ("Unknown tool: " ++ tc.name) }])) := by
  refine ⟨fun env n p => rfl, execute_tool_unknown, ?_, ?_, ?_⟩
  · intro env p d m hd hm
    have hb := metadata_filters_bad_date env p d m hd hm
    constructor
    · have : execute_tool_raw env "search_by_metadata" p = tool_search_by_metadata env p := rfl
      simp [execute_tool, this, tool_search_by_metadata, hb.1]
    · have : execute_tool_raw env "count_articles" p = tool_count_articles env p := rfl
      simp [execute_tool, this, tool_count_articles, hb.2]
  · intro env p hq
    have : execute_tool_raw env "search_by_content" p = tool_search_by_content env p := rfl
    simp [execute_tool, this, tool_search_by_content, hq]
  · intro env llm M i remaining conv acc c tc hllm hname
    have hres := execute_tool_unknown env tc.name tc.parameters hname
    simp [query_loop, hllm, process_tool_calls, process_one_tool_call, hres]

/-- Witness corpus: an article with full metadata and an embedding. -/
def artW1 : Article :=
  { article_id := "a1",
    metadata := { title := "Titolo uno", author := "Guido Rossi",
                  publication_date := some 20240101, categories := ["politica"] },
    embedding := some [mkRat 1 1], url := some "u1", source := some "s1",
    full_text := "testo uno" }

/-- Witness corpus: an article with no date, no embedding and no url. -/
def artW2 : Article :=
  { article_id := "a2",
    metadata := { title := "Titolo due", author := "Maria Rossini",
                  publication_date := none, categories := [] },
    embedding := none, url := none, source := none, full_text := "testo due" }

/-- Witness corpus: an article by an unrelated author. -/
def artW3 : Article :=
  { article_id := "a3",
    metadata := { title := "Titolo tre", author := "Luca Bianchi",
                  publication_date := some 20240215, categories := ["economia"] },
    embedding := some [mkRat 2 1], url := some "u3", source := some "s3",
    full_text := "testo tre" }

/-- A concrete environment for witnesses: three stored articles, a stub
embedding provider, an ISO parser accepting one date, and `top_k = 5`. -/
def envW : Env :=
  { db := [artW1, artW2, artW3],
    embed_text := fun _ => [mkRat 1 1],
    sim := fun _ _ => mkRat 1 2,
    parseISO := fun s =>
      if s = "2024-01-01" then .ok 20240101
      else .error ("Invalid isoformat string: " ++ s),
    strftime := fun _ => "2024-01-01",
    dumps := fun _ => "json",
    semantic_top_k := 5 }

/-- C2 witness: the dispatch theorem applied at concrete inputs — an
unregistered tool name, an unparseable date, and a missing required
parameter all yield structured error payloads. -/
theorem execute_tool_structured_errors_witness :
    execute_tool envW "riassumi" {} = .error "Unknown tool: riassumi" ∧
    execute_tool envW "search_by_metadata" { date_from := some "oggi" } =
      .error "Invalid isoformat string: oggi" ∧
    execute_tool envW "search_by_content" {} = .error "KeyError: query" :=
  ⟨execute_tool_structured_errors.2.1 envW "riassumi" {} (by decide),
   (execute_tool_structured_errors.2.2.1 envW { date_from := some "oggi" } "oggi"
      "Invalid isoformat string: oggi" (by decide) (by decide)).1,
   execute_tool_structured_errors.2.2.2.1 envW {} rfl⟩

/-- C5: `count_articles` and `search_by_metadata` build the same filter from
the same parameter mapping (their duplicated filter preludes are literally
equal), and whenever the number of matching documents stays under the
metadata result cap of 100 the integer returned by `count_articles` equals
`total_found` — the length of the list found by `search_by_metadata` — since
the find with limit 100 then materialises every match. -/
theorem count_articles_consistent_with_search :
    (∀ (env : Env) (p : ToolParams),
      metadata_filters_for_search env p = metadata_filters_for_count env p) ∧
    ∀ (env : Env) (p : ToolParams) (f : MongoFilter),
      metadata_filters_for_count env p = .ok f →
      count_by_filter env.db f < 100 →
      tool_count_articles env p = .ok (.countResult (count_by_filter env.db f) p) ∧
      tool_search_by_metadata env p =
        .ok (.metadataHits (count_by_filter env.db f) p
          (((env.db.filter (filterMatches f)).take 50).map (meta_hit env))) := by
  refine ⟨fun env p => rfl, ?_⟩
  intro env p f hf hcap
  have htake : (env.db.filter (filterMatches f)).take 100 = env.db.filter (filterMatches f) :=
    List.take_of_length_le (le_of_lt hcap)
  have hs : metadata_filters_for_search env p = .ok f := hf
  constructor
  · simp [tool_count_articles, hf, Bind.bind, Except.bind, pure, Except.pure]
  · simp [tool_search_by_metadata, hs, Bind.bind, Except.bind, pure, Except.pure,
      find_by_filter, htake, count_by_filter]

/-- The parameter mapping of the C5 witness. -/
def paramsW : ToolParams := { author := some "ross" }

/-- The filter both tools build from `paramsW`. -/
def filterW : MongoFilter := { author_regex := some "ross" }

/-- C5 witness: on the three-article corpus the author filter `"ross"`
matches two documents (case-insensitive substring), well under the cap, and
the two tools agree on the count. -/
theorem count_articles_consistent_with_search_witness :
    count_by_filter envW.db filterW = 2 ∧
    tool_count_articles envW paramsW = .ok (.countResult (count_by_filter envW.db filterW) paramsW) ∧
    tool_search_by_metadata envW paramsW =
      .ok (.metadataHits (count_by_filter envW.db filterW) paramsW
        (((envW.db.filter (filterMatches filterW)).take 50).map (meta_hit envW))) :=
  ⟨by decide,
   count_articles_consistent_with_search.2 envW paramsW filterW (by decide) (by decide)⟩

/-- If every provider response carries at least one tool call, the loop runs
its full budget and returns the fallback result carrying the complete trace
of executed tool calls. -/
lemma query_loop_exhaustion_aux (env : Env) (llm : LLMStub) (M : Nat)
    (H : ∀ i conv, ∃ r, llm i conv = .ok r ∧ r.tool_calls ≠ []) :
    ∀ (remaining i : Nat) (conv : List Message) (acc : List ToolRecord),
      query_loop env llm M i remaining conv acc =
        .ok { answer := iteration_limit_answer,
              tool_calls := query_loop_trace env llm i remaining conv acc,
              iterations := M } := by
  intro remaining
  induction remaining with
  | zero => intro i conv acc; simp [query_loop, query_loop_trace]
  | succ r ih =>
    intro i conv acc
    obtain ⟨resp, hr, hne⟩ := H i conv
    have hemp : resp.tool_calls.isEmpty = false := by
      simpa [List.isEmpty_iff] using hne
    simp only [query_loop, query_loop_trace, hr, hemp, Bool.false_eq_true, if_false]
    exact ih (i + 1) _ _

/-- C1: when every completion-provider response of a run requests at least
one tool call, `query` returns — normally, never by raising — after exactly
`max_iterations` iterations, with the fixed fallback answer, with
`iterations = max_iterations`, and with `tool_calls` equal to the full trace
of every tool call executed by the run (`query_loop_trace` recomputes the
dispatch of every iteration). -/
theorem query_exhaustion_soft_failure (env : Env) (llm : LLMStub) (q : String)
    (max_iterations : Nat)
    (H : ∀ i conv, ∃ r, llm i conv = .ok r ∧ r.tool_calls ≠ []) :
    query env llm q max_iterations =
      .ok { answer := iteration_limit_answer,
            tool_calls := query_loop_trace env llm 0 max_iterations
              [{ role := "system", content := get_system_prompt },
               { role := "user", content := q }] [],
            iterations := max_iterations } :=
  query_loop_exhaustion_aux env llm max_iterations H max_iterations 0 _ _

/-- A stub provider that always requests the same single tool call. -/
def llmLoopW : LLMStub := fun _ _ =>
  .ok { content := "",
        tool_calls := [{ id := "c1", name := "count_articles", parameters := {} }] }

/-- C1 witness: with a stub provider that always requests one tool call,
`query(..., max_iterations = 3)` returns the fallback answer with
`iterations = 3`, and the trace it carries holds the three executed calls. -/
theorem query_exhaustion_soft_failure_witness :
    query envW llmLoopW "quanti articoli ci sono?" 3 =
      .ok { answer := iteration_limit_answer,
            tool_calls := query_loop_trace envW llmLoopW 0 3
              [{ role := "system", content := get_system_prompt },
               { role := "user", content := "quanti articoli ci sono?" }] [],
            iterations := 3 } ∧
    (query_loop_trace envW llmLoopW 0 3
      [{ role := "system", content := get_system_prompt },
       { role := "user", content := "quanti articoli ci sono?" }] []).length = 3 :=
  ⟨query_exhaustion_soft_failure envW llmLoopW "quanti articoli ci sono?" 3
      (fun _ _ => ⟨_, rfl, by decide⟩),
   by decide⟩

/-- If the provider succeeds with tool calls strictly before call `k` and
fails at call `k`, the loop reaches call `k` and aborts with that failure. -/
lemma query_loop_abort_aux (env : Env) (llm : LLMStub) (M k : Nat) (e : String)
    (Hok : ∀ i conv, i < k → ∃ r, llm i conv = .ok r ∧ r.tool_calls ≠ [])
    (Herr : ∀ conv, llm k conv = .error e) :
    ∀ (remaining i : Nat) (conv : List Message) (acc : List ToolRecord),
      i ≤ k → k < i + remaining →
      query_loop env llm M i remaining conv acc = .error e := by
  intro remaining
  induction remaining with
  | zero => intro i conv acc hik hk; omega
  | succ r ih =>
    intro i conv acc hik hk
    rcases eq_or_lt_of_le hik with rfl | hlt
    · simp [query_loop, Herr conv]
    · obtain ⟨resp, hr, hne⟩ := Hok i conv hlt
      have hemp : resp.tool_calls.isEmpty = false := by
        simpa [List.isEmpty_iff] using hne
      simp only [query_loop, hr, hemp, Bool.false_eq_true, if_false]
      exact ih (i + 1) _ _ hlt (by omega)

/-- C9: a completion-provider failure is fatal to the run: if the provider
fails at its `k`-th call (after `k` tool-calling responses), `query` returns
that failure — it is never converted into a normal answer — and the run makes
no further provider calls: any provider agreeing with this one up to call `k`
produces the same aborted run, so the failing call is not retried. -/
theorem provider_failure_aborts_run (env : Env) (llm : LLMStub) (q : String)
    (max_iterations k : Nat) (e : String)
    (hk : k < max_iterations)
    (Hok : ∀ i conv, i < k → ∃ r, llm i conv = .ok r ∧ r.tool_calls ≠ [])
    (Herr : ∀ conv, llm k conv = .error e) :
    query env llm q max_iterations = .error e ∧
    ∀ llm' : LLMStub, (∀ i conv, i ≤ k → llm' i conv = llm i conv) →
      query env llm' q max_iterations = .error e := by
  constructor
  · exact query_loop_abort_aux env llm max_iterations k e Hok Herr max_iterations 0 _ _
      (Nat.zero_le k) (by omega)
  · intro llm' hagree
    exact query_loop_abort_aux env llm' max_iterations k e
      (fun i conv hi => by
        rw [hagree i conv (le_of_lt hi)]; exact Hok i conv hi)
      (fun conv => by rw [hagree k conv le_rfl]; exact Herr conv)
      max_iterations 0 _ _ (Nat.zero_le k) (by omega)

/-- A stub provider: one tool-calling response, then a hard failure. -/
def llmFailW : LLMStub := fun i _ =>
  if i = 0 then
    .ok { content := "",
          tool_calls := [{ id := "c1", name := "search_by_author",
                           parameters := { author := some "ross" } }] }
  else .error "connessione rifiutata"

/-- C9 witness: with the provider failing at its second call, the run aborts
with that failure. -/
theorem provider_failure_aborts_run_witness :
    query envW llmFailW "chi scrive di politica?" 3 = .error "connessione rifiutata" :=
  (provider_failure_aborts_run envW llmFailW "chi scrive di politica?" 3 1
    "connessione rifiutata" (by decide)
    (fun i conv hi => by
      have h0 : i = 0 := by omega
      subst h0
      exact ⟨_, rfl, by decide⟩)
    (fun conv => rfl)).1

/-- C6: with the default `max_history_turns = 10` the compression threshold
is 20 turns; on a 24-turn history, compression run before the new user turn
is appended yields, under strategy `"summary"` (with a succeeding
summarisation call), exactly 7 turns — one synthetic system turn holding the
summary followed by the 6 most recent turns verbatim — and, under strategy
`"truncate"`, exactly the 20 most recent turns (the truncation path never
consults the generation stub). -/
theorem compression_thresholds_at_24 (gen : String → Nat → Except String String)
    (s : String) (history : List Message)
    (hlen : history.length = 24)
    (hgen : ∀ prompt max_tokens, gen prompt max_tokens = .ok s) :
    (chat_maybe_compress { compression_strategy := "summary" } gen history =
        { role := "system",
          content := "[Contesto conversazione precedente: " ++ s ++ "]" } ::
          history.drop 18 ∧
      (chat_maybe_compress { compression_strategy := "summary" } gen history).length = 7) ∧
    (chat_maybe_compress { compression_strategy := "truncate" } gen history =
        history.drop 4 ∧
      (chat_maybe_compress { compression_strategy := "truncate" } gen history).length = 20) := by
  have hsum : compress_history_with_summary gen history =
      { role := "system",
        content := "[Contesto conversazione precedente: " ++ s ++ "]" } ::
        history.drop 18 := by
    simp only [compress_history_with_summary, hlen, hgen]
    norm_num
  have htr : truncate_history 10 history = history.drop 4 := by
    simp only [truncate_history, hlen]
    norm_num
  have hcs : chat_maybe_compress { compression_strategy := "summary" } gen history =
      compress_history_with_summary gen history := by
    simp [chat_maybe_compress, hlen]
  have hct : chat_maybe_compress { compression_strategy := "truncate" } gen history =
      truncate_history 10 history := by
    simp [chat_maybe_compress, hlen]
  refine ⟨⟨hcs.trans hsum, ?_⟩, hct.trans htr, ?_⟩
  · rw [hcs.trans hsum]
    simp [hlen]
  · rw [hct.trans htr]
    simp [hlen]

/-- A 24-turn history for the compression witnesses. -/
def historyW : List Message := List.replicate 24 { role := "user", content := "ciao" }

/-- A summarisation stub that always succeeds. -/
def genW : String → Nat → Except String String := fun _ _ => .ok "riassunto"

/-- C6 witness: the compression theorem applied to a concrete 24-turn
history and a succeeding summarisation stub. -/
theorem compression_thresholds_at_24_witness :
    (chat_maybe_compress { compression_strategy := "summary" } genW historyW =
        { role := "system",
          content := "[Contesto conversazione precedente: " ++ "riassunto" ++ "]" } ::
          historyW.drop 18 ∧
      (chat_maybe_compress { compression_strategy := "summary" } genW historyW).length = 7) ∧
    (chat_maybe_compress { compression_strategy := "truncate" } genW historyW =
        historyW.drop 4 ∧
      (chat_maybe_compress { compression_strategy := "truncate" } genW historyW).length = 20) :=
  compression_thresholds_at_24 genW "riassunto" historyW (by decide) (fun _ _ => rfl)

/-- C7: when the summarisation call fails, the summary-strategy compression
falls back to keeping exactly the 6 most recent turns — no exception escapes
(the compression returns a value) — and the user's current turn is still
processed: the surrounding `chat` call completes normally and its returned
history holds the retained turns followed by the new user turn and the
assistant answer. -/
theorem summary_failure_keeps_recent_six (env : Env) (llm : LLMStub)
    (gen : String → Nat → Except String String) (history : List Message)
    (q ans m : String) (max_iterations : Nat)
    (hgen : ∀ prompt max_tokens, gen prompt max_tokens = .error m)
    (hlen : 20 < history.length)
    (hllm : ∀ conv, llm 0 conv = .ok { content := ans, tool_calls := [] })
    (hM : 0 < max_iterations) :
    compress_history_with_summary gen history = history.drop (history.length - 6) ∧
    chat {} env llm gen q max_iterations history =
      .ok ({ answer := ans, tool_calls := [], iterations := 1 },
           history.drop (history.length - 6) ++
             [{ role := "user", content := q }, { role := "assistant", content := ans }]) := by
  have hfall : compress_history_with_summary gen history =
      history.drop (history.length - 6) := by
    simp only [compress_history_with_summary, hgen]
    rw [if_neg (by omega)]
  refine ⟨hfall, ?_⟩
  have h20 : 20 < history.length := hlen
  have hcomp : chat_maybe_compress {} gen history = history.drop (history.length - 6) := by
    simp [chat_maybe_compress, h20, hfall]
  obtain ⟨r, rfl⟩ : ∃ r, max_iterations = r + 1 :=
    ⟨max_iterations - 1, by omega⟩
  show chat_loop env llm (r + 1) 0 (r + 1) _ [] _ = _
  simp only [chat_loop, hllm, List.isEmpty_nil, if_true, hcomp, List.append_assoc]
  rfl

/-- A summarisation stub that always fails. -/
def genFailW : String → Nat → Except String String := fun _ _ => .error "errore di rete"

/-- A stub provider answering immediately with no tool calls. -/
def llmAnsW : LLMStub := fun _ _ => .ok { content := "ecco la risposta", tool_calls := [] }

/-- C7 witness: on a concrete 24-turn history with a failing summariser, the
compression keeps the recent 6 turns and the chat turn completes normally. -/
theorem summary_failure_keeps_recent_six_witness :
    compress_history_with_summary genFailW historyW =
      historyW.drop (historyW.length - 6) ∧
    chat {} envW llmAnsW genFailW "come va?" 3 historyW =
      .ok ({ answer := "ecco la risposta", tool_calls := [], iterations := 1 },
           historyW.drop (historyW.length - 6) ++
             [{ role := "user", content := "come va?" },
              { role := "assistant", content := "ecco la risposta" }]) :=
  summary_failure_keeps_recent_six envW llmAnsW genFailW historyW "come va?"
    "ecco la risposta" "errore di rete" 3 (fun _ _ => rfl) (by decide)
    (fun _ => rfl) (by decide)

/-- Every turn of a compressed history is either the synthetic system summary
turn or a turn of the original history. -/
lemma mem_chat_maybe_compress (cfg : ChatConfig) (gen : String → Nat → Except String String)
    (history : List Message) (t : Message)
    (ht : t ∈ chat_maybe_compress cfg gen history) :
    t.role = "system" ∨ t ∈ history := by
  simp only [chat_maybe_compress] at ht
  split at ht
  · split at ht
    · simp only [compress_history_with_summary] at ht
      split at ht
      · exact Or.inr ht
      · split at ht
        · rcases List.mem_cons.mp ht with h | h
          · left; rw [h]
          · exact Or.inr (List.drop_subset _ _ h)
        · exact Or.inr (List.drop_subset _ _ ht)
    · split at ht
      · simp only [truncate_history] at ht
        split at ht
        · exact Or.inr (List.drop_subset _ _ ht)
        · exact Or.inr ht
      · exact Or.inr ht
  · exact Or.inr ht

/-- The persistent history threaded through the chat loop is returned
unchanged except for exactly one appended assistant turn carrying the
answer, on both the final-answer and the exhaustion paths. -/
lemma chat_loop_history_shape (env : Env) (llm : LLMStub) (M : Nat) :
    ∀ (remaining i : Nat) (conv : List Message) (acc : List ToolRecord)
      (history : List Message) (res : QueryResult) (hist2 : List Message),
      chat_loop env llm M i remaining conv acc history = .ok (res, hist2) →
      hist2 = history ++ [{ role := "assistant", content := res.answer }] := by
  intro remaining
  induction remaining with
  | zero =>
    intro i conv acc history res hist2 h
    simp only [chat_loop, Except.ok.injEq, Prod.mk.injEq] at h
    obtain ⟨hres, hh⟩ := h
    subst hres
    exact hh.symm
  | succ r ih =>
    intro i conv acc history res hist2 h
    simp only [chat_loop] at h
    cases hllm : llm i conv with
    | error e => rw [hllm] at h; cases h
    | ok resp =>
      rw [hllm] at h
      cases hemp : resp.tool_calls.isEmpty with
      | true =>
        simp only [hemp, if_true] at h
        simp only [Except.ok.injEq, Prod.mk.injEq] at h
        obtain ⟨hres, hh⟩ := h
        subst hres
        exact hh.symm
      | false =>
        simp only [hemp, Bool.false_eq_true, if_false] at h
        exact ih (i + 1) _ _ _ _ _ h

/-- C8: across one terminating `chat` call the persistent session history
gains exactly the new user turn and one assistant turn (on top of the
compression step): assistant turns echoing tool-call requests and
tool-result turns live in the per-run working context only.  In particular a
history free of `"tool"` turns stays free of them. -/
theorem chat_session_history_discipline (cfg : ChatConfig) (env : Env) (llm : LLMStub)
    (gen : String → Nat → Except String String) (q : String) (max_iterations : Nat)
    (history : List Message) (res : QueryResult) (hist2 : List Message)
    (hrun : chat cfg env llm gen q max_iterations history = .ok (res, hist2))
    (hclean : ∀ t ∈ history, t.role ≠ "tool") :
    hist2 = chat_maybe_compress cfg gen history ++
      [{ role := "user", content := q }, { role := "assistant", content := res.answer }] ∧
    ∀ t ∈ hist2, t.role ≠ "tool" := by
  have hrun' : chat_loop env llm max_iterations 0 max_iterations
      ({ role := "system", content := get_system_prompt } ::
        (chat_maybe_compress cfg gen history ++
          [({ role := "user", content := q } : Message)]))
      []
      (chat_maybe_compress cfg gen history ++
        [({ role := "user", content := q } : Message)]) =
      .ok (res, hist2) := hrun
  have hshape := chat_loop_history_shape env llm max_iterations max_iterations 0
    _ _ _ res hist2 hrun'
  constructor
  · rw [hshape]
    simp
  · intro t ht
    rw [hshape] at ht
    rcases List.mem_append.mp ht with h | h
    · rcases List.mem_append.mp h with h1 | h1
      · rcases mem_chat_maybe_compress cfg gen history t h1 with hs | hmem
        · rw [hs]; decide
        · exact hclean t hmem
      · have : t = { role := "user", content := q } := by simpa using h1
        rw [this]
        exact (by decide : ("user" : String) ≠ "tool")
    · have : t = { role := "assistant", content := res.answer } := by simpa using h
      rw [this]
      exact (by decide : ("assistant" : String) ≠ "tool")

/-- C8 witness: the discipline theorem applied to a concrete run — starting
from the empty session, one chat call leaves exactly the user turn and the
assistant turn, and no tool turn, in the session history. -/
theorem chat_session_history_discipline_witness :
    ([{ role := "user", content := "ciao" },
      { role := "assistant", content := "ecco la risposta" }] : List Message) =
      chat_maybe_compress {} genW [] ++
        [{ role := "user", content := "ciao" },
         { role := "assistant", content := "ecco la risposta" }] ∧
    ∀ t ∈ ([{ role := "user", content := "ciao" },
            { role := "assistant", content := "ecco la risposta" }] : List Message),
      t.role ≠ "tool" :=
  chat_session_history_discipline {} envW llmAnsW genW "ciao" 3 []
    { answer := "ecco la risposta", tool_calls := [], iterations := 1 }
    [{ role := "user", content := "ciao" },
     { role := "assistant", content := "ecco la risposta" }]
    (by decide) (by simp)

/-- On a list sorted descending by `key`, filtering by `T < key` commutes
with truncation: keeping the top `k` and then thresholding equals
thresholding the full sorted list and then keeping the top `k`, because the
qualifying elements form a prefix of the sorted list. -/
lemma filter_take_of_sorted {α : Type} (key : α → Rat) (T : Rat) :
    ∀ (l : List α) (k : Nat), l.Pairwise (fun x y => key y ≤ key x) →
      (l.take k).filter (fun x => decide (T < key x)) =
        (l.filter (fun x => decide (T < key x))).take k := by
  intro l
  induction l with
  | nil => intro k _; simp
  | cons a l ih =>
    intro k hp
    rw [List.pairwise_cons] at hp
    obtain ⟨ha, hl⟩ := hp
    cases k with
    | zero => simp
    | succ k =>
      rw [List.take_succ_cons]
      by_cases hTa : T < key a
      · rw [List.filter_cons_of_pos (by simpa using hTa),
          List.filter_cons_of_pos (by simpa using hTa),
          List.take_succ_cons, ih k hl]
      · rw [List.filter_cons_of_neg (by simpa using hTa),
          List.filter_cons_of_neg (by simpa using hTa)]
        have hnone : ∀ x ∈ l, ¬ T < key x := fun x hx hTx =>
          hTa (lt_of_lt_of_le hTx (ha x hx))
        have h1 : l.filter (fun x => decide (T < key x)) = [] := by
          rw [List.filter_eq_nil_iff]
          intro x hx
          simpa using hnone x hx
        have h2 : (l.take k).filter (fun x => decide (T < key x)) = [] := by
          rw [List.filter_eq_nil_iff]
          intro x hx
          simpa using hnone x (List.take_subset _ _ hx)
        rw [h1, h2, List.take_nil]

/-- The ranked list produced by `rank_by_similarity` is sorted descending by
score. -/
lemma rank_by_similarity_sorted (sim : List Rat → List Rat → Rat) (q : List Rat)
    (pairs : List (Article × List Rat)) :
    (rank_by_similarity sim q pairs).Pairwise
      (fun x y : Article × List Rat × Rat => y.2.2 ≤ x.2.2) := by
  letI : IsTotal (Article × List Rat × Rat) (fun x y => y.2.2 ≤ x.2.2) :=
    ⟨fun a b => le_total b.2.2 a.2.2⟩
  letI : IsTrans (Article × List Rat × Rat) (fun x y => y.2.2 ≤ x.2.2) :=
    ⟨fun a b c hab hbc => le_trans hbc hab⟩
  simpa [rank_by_similarity, List.Sorted] using
    List.sorted_insertionSort (fun x y : Article × List Rat × Rat => y.2.2 ≤ x.2.2)
      (pairs.map fun p => (p.1, p.2, sim q p.2))

/-- C3: on a corpus with at least one embedded document,
`search_by_content` returns exactly the documents whose similarity score
exceeds the threshold `0.3`, in descending score order, truncated to the
top `semantic_top_k`: the code's take-then-filter over the sorted ranking
equals the spec's filter-then-truncate (they coincide on a descending list),
and `total_found` is the length of that list, so it counts qualifying
documents only.  The second conjunct records the descending order. -/
theorem search_by_content_threshold_spec (env : Env) (params : ToolParams) (q : String)
    (hq : params.query = some q)
    (hne : articles_with_embeddings env.db ≠ []) :
    tool_search_by_content env params =
      .ok (.contentHits
        ((((rank_by_similarity env.sim (env.embed_text q)
              (articles_with_embeddings env.db)).filter
            (fun t => decide (semanticThreshold < t.2.2))).take env.semantic_top_k).map
          (content_hit env)).length
        ((((rank_by_similarity env.sim (env.embed_text q)
              (articles_with_embeddings env.db)).filter
            (fun t => decide (semanticThreshold < t.2.2))).take env.semantic_top_k).map
          (content_hit env))) ∧
    (((rank_by_similarity env.sim (env.embed_text q)
        (articles_with_embeddings env.db)).filter
      (fun t => decide (semanticThreshold < t.2.2))).take env.semantic_top_k).Pairwise
      (fun x y => y.2.2 ≤ x.2.2) := by
  have hsorted := rank_by_similarity_sorted env.sim (env.embed_text q)
    (articles_with_embeddings env.db)
  have hcomm := filter_take_of_sorted (fun t : Article × List Rat × Rat => t.2.2)
    semanticThreshold
    (rank_by_similarity env.sim (env.embed_text q) (articles_with_embeddings env.db))
    env.semantic_top_k hsorted
  constructor
  · have hemp : (articles_with_embeddings env.db).isEmpty = false := by
      simpa [List.isEmpty_iff] using hne
    simp only [tool_search_by_content, hq, hemp, Bool.false_eq_true, if_false]
    rw [hcomm]
  · exact hsorted.sublist
      ((List.take_sublist _ _).trans (List.filter_sublist _))

/-- Witness corpus for C3: the document scored `0.5`. -/
def artA : Article :=
  { article_id := "A",
    metadata := { title := "TA", author := "AutoreA", publication_date := none,
                  categories := [] },
    embedding := some [mkRat 1 1], url := none, source := none, full_text := "tA" }

/-- Witness corpus for C3: the document scored `0.2`. -/
def artB : Article :=
  { article_id := "B",
    metadata := { title := "TB", author := "AutoreB", publication_date := none,
                  categories := [] },
    embedding := some [mkRat 2 1], url := none, source := none, full_text := "tB" }

/-- Witness corpus for C3: the document scored `0.9`. -/
def artC : Article :=
  { article_id := "C",
    metadata := { title := "TC", author := "AutoreC", publication_date := none,
                  categories := [] },
    embedding := some [mkRat 3 1], url := none, source := none, full_text := "tC" }

/-- The C3 witness environment: similarity gives A ↦ 0.5, B ↦ 0.2, C ↦ 0.9. -/
def envC3 : Env :=
  { db := [artA, artB, artC],
    embed_text := fun _ => [mkRat 0 1],
    sim := fun _ e =>
      if e = [mkRat 1 1] then mkRat 1 2
      else if e = [mkRat 2 1] then mkRat 1 5
      else mkRat 9 10,
    parseISO := fun _ => .error "non usato",
    strftime := fun _ => "N-A",
    dumps := fun _ => "json",
    semantic_top_k := 5 }

/-- C3 witness: with documents A(0.5), B(0.2), C(0.9) and threshold 0.3,
`search_by_content` returns `[C, A]` in that order, excluding B, with
`total_found = 2`. -/
theorem search_by_content_threshold_spec_witness :
    tool_search_by_content envC3 { query := some "guerra" } =
      .ok (.contentHits 2
        [content_hit envC3 (artC, [mkRat 3 1], mkRat 9 10),
         content_hit envC3 (artA, [mkRat 1 1], mkRat 1 2)]) :=
  ((search_by_content_threshold_spec envC3 { query := some "guerra" } "guerra" rfl
    (by decide)).1).trans (by decide)

end RagJournal
